import Mathlib

/-!
Verification development for the firecam wildfire-detection pipeline.

The definitions below are shallow embeddings of the Python source of the
repository (`src/smoke-classifier/detect_fire.py`, `src/bin/archiver.py`,
`src/firecam/lib/rect_to_squares.py`, `src/firecam/lib/img_archive.py`,
`src/firecam/detection_policies/inception_and_threshold.py`).  Machine floats
are modelled as exact rationals; Python's `int()`, `round()` and `%` on
numbers are modelled explicitly by `pyInt`, `pyRound` and `pyFloorMod`.
External libraries (shapely polygon intersection, trigonometric functions,
TensorFlow models) enter as explicit function parameters, so that every
definition stays executable.
-/

namespace Firecam

/-- Python `%` on numbers: `x % m = x - m * floor (x / m)` (sign follows the
divisor).  Used for the angle arithmetic done with floats in the source. -/
def pyFloorMod (x m : ℚ) : ℚ := x - m * ⌊x / m⌋

/-- Python `int()`: truncation toward zero. -/
def pyInt (q : ℚ) : ℤ := if 0 ≤ q then ⌊q⌋ else ⌈q⌉

/-- Python `round()` to an integer: nearest integer, ties to even. -/
def pyRound (q : ℚ) : ℤ :=
  let f := ⌊q⌋
  let r := q - f
  if r < 1/2 then f
  else if 1/2 < r then f + 1
  else if Even f then f else f + 1

theorem pyInt_intCast (n : ℤ) : pyInt (n : ℚ) = n := by
  simp [pyInt, Int.floor_intCast, Int.ceil_intCast]

theorem pyRound_intCast (n : ℤ) : pyRound (n : ℚ) = n := by
  simp [pyRound, Int.floor_intCast]

theorem pyRound_nonneg {q : ℚ} (hq : 0 ≤ q) : 0 ≤ pyRound q := by
  have hf : (0 : ℤ) ≤ ⌊q⌋ := Int.floor_nonneg.mpr hq
  unfold pyRound
  dsimp only
  split
  · exact hf
  · split
    · omega
    · split
      · exact hf
      · omega

/-! ### Fleet controller diurnal mode (`src/bin/archiver.py`, `getTimeType`) -/

/-- Embedding of `archiver.getTimeType`.  `detectStartTime` and
`detectEndTime` are the parsed wall-clock configuration values in epoch
seconds, `timeNow` the current epoch time; the source compares with strict
inequalities on both sides. -/
def getTimeType (detectStartTime detectEndTime timeNow : ℤ) : String :=
  let archiveStartTime := detectStartTime - 60 * 10
  let archiveEndTime := detectEndTime + 60 * 10
  if detectStartTime < timeNow ∧ timeNow < detectEndTime then "detect"
  else if archiveStartTime < timeNow ∧ timeNow < archiveEndTime then "archive"
  else "inactive"

/-- C7 counterexample: the claim says the mode is `detect` iff `now` lies in
the *closed* interval `[detectStart, detectEnd]`; at `now = detectStart`
(inside the closed interval) the code returns `archive`, not `detect`. -/
theorem getTimeType_closed_interval_counterexample :
    getTimeType 1000 2000 1000 = "archive" ∧
    (1000 : ℤ) ≤ 1000 ∧ (1000 : ℤ) ≤ 2000 ∧ getTimeType 1000 2000 1000 ≠ "detect" := by
  refine ⟨by decide, by decide, by decide, ?_⟩
  decide

/-- C7 amended: the mode is `detect` iff `now` lies in the *open* interval
`(detectStart, detectEnd)`; it is `archive` iff `now` lies in the open
interval `(detectStart - 10 min, detectEnd + 10 min)` but not in the detect
interval; otherwise it is `inactive`. -/
theorem getTimeType_modes (s e n : ℤ) :
    (getTimeType s e n = "detect" ↔ (s < n ∧ n < e)) ∧
    (getTimeType s e n = "archive" ↔ (¬(s < n ∧ n < e) ∧ s - 600 < n ∧ n < e + 600)) ∧
    (getTimeType s e n = "inactive" ↔ (¬(s < n ∧ n < e) ∧ ¬(s - 600 < n ∧ n < e + 600))) := by
  unfold getTimeType
  by_cases h1 : s < n ∧ n < e
  · simp only [h1, if_pos, and_true]
    refine ⟨by simp, ?_, ?_⟩ <;> simp [h1]
  · rw [if_neg h1]
    by_cases h2 : s - 60 * 10 < n ∧ n < e + 60 * 10
    · rw [if_pos h2]
      refine ⟨by simp [h1], ?_, ?_⟩
      · simpa [h1] using by omega
      · simp only [String.reduceEq, false_iff]
        push_neg
        intro _
        omega
    · rw [if_neg h2]
      refine ⟨by simp [h1], ?_, ?_⟩
      · simp only [String.reduceEq, false_iff]
        intro h
        exact h2 ⟨by omega, by omega⟩
      · simp only [true_iff, String.reduceEq]
        exact ⟨h1, fun h => h2 ⟨by omega, by omega⟩⟩

/-! ### Image tiling (`src/firecam/lib/rect_to_squares.py`, `getSegmentRanges`) -/

/-- Embedding of `rect_to_squares.getSegmentRanges`.  The Python `for` loop
with its `break` on `start + segmentSize > fullSize` is rendered as a
`takeWhile` over the generated start positions; `overlapRatio = 1.15` is the
rational `23/20`. -/
def getSegmentRanges (fullSize segmentSize : ℤ) : List (ℤ × ℤ) :=
  if fullSize < segmentSize then []
  else if fullSize = segmentSize then [(0, segmentSize)]
  else
    let firstCenter : ℤ := pyInt ((segmentSize : ℚ) / 2)
    let lastCenter : ℤ := fullSize - pyInt ((segmentSize : ℚ) / 2)
    let flexSize : ℤ := lastCenter - firstCenter
    let numSegments : ℤ := ⌈(flexSize : ℚ) / ((segmentSize : ℚ) / (23/20 : ℚ))⌉
    let offset : ℚ := (flexSize : ℚ) / (numSegments : ℚ)
    let starts :=
      ((List.range numSegments.toNat).map
        (fun (i : ℕ) => firstCenter + pyRound ((i : ℚ) * offset) - pyInt ((segmentSize : ℚ) / 2))).takeWhile
        (fun start => decide (start + segmentSize ≤ fullSize))
    (starts.map (fun s => (s, s + segmentSize))) ++ [(fullSize - segmentSize, fullSize)]

/-- C9: for tile size 299, an axis shorter than 299 yields the empty list;
otherwise every produced range is exactly 299 wide and lies inside
`[0, fullSize]`, and the last range is flush with the edge:
`(fullSize - 299, fullSize)`. -/
theorem getSegmentRanges_spec (fullSize : ℤ) :
    (fullSize < 299 → getSegmentRanges fullSize 299 = []) ∧
    (299 ≤ fullSize →
      (∀ r ∈ getSegmentRanges fullSize 299, r.2 - r.1 = 299 ∧ 0 ≤ r.1 ∧ r.2 ≤ fullSize) ∧
      (getSegmentRanges fullSize 299).getLast? = some (fullSize - 299, fullSize)) := by
  have h149 : pyInt (((299 : ℤ) : ℚ) / 2) = 149 := by
    rw [pyInt, if_pos (by norm_num)]
    rw [Int.floor_eq_iff]
    norm_num
  constructor
  · intro h
    simp [getSegmentRanges, h]
  · intro h
    rcases eq_or_lt_of_le h with heq | hgt
    · constructor
      · intro r hr
        have hr' : r = (0, 299) := by
          simpa [getSegmentRanges, ← heq] using hr
        subst hr'
        omega
      · simp [getSegmentRanges, ← heq]
    · have hne : fullSize ≠ 299 := by omega
      have hnlt : ¬ fullSize < 299 := by omega
      rw [getSegmentRanges, if_neg hnlt, if_neg hne]
      simp only [h149]
      set flexSize : ℤ := fullSize - 149 - 149 with hflex
      set numSegments : ℤ := ⌈(flexSize : ℚ) / (((299 : ℤ) : ℚ) / (23/20 : ℚ))⌉ with hnum
      set offset : ℚ := (flexSize : ℚ) / (numSegments : ℚ) with hoff
      have hflexpos : 0 < flexSize := by omega
      have hnumpos : 0 < numSegments := by
        rw [hnum]
        apply Int.ceil_pos.mpr
        apply div_pos
        · exact_mod_cast hflexpos
        · norm_num
      have hoffnn : 0 ≤ offset := by
        rw [hoff]
        apply div_nonneg
        · exact_mod_cast hflexpos.le
        · exact_mod_cast hnumpos.le
      set starts := ((List.range numSegments.toNat).map
          (fun (i : ℕ) => 149 + pyRound ((i : ℚ) * offset) - 149)).takeWhile
          (fun start => decide (start + 299 ≤ fullSize)) with hstarts
      constructor
      · intro r hr
        rcases List.mem_append.mp hr with hr' | hr'
        · obtain ⟨s, hs, rfl⟩ := List.mem_map.mp hr'
          refine ⟨by omega, ?_, ?_⟩
          · have hsub : s ∈ (List.range numSegments.toNat).map
                (fun (i : ℕ) => 149 + pyRound ((i : ℚ) * offset) - 149) :=
              (List.takeWhile_prefix _).subset hs
            obtain ⟨i, _, rfl⟩ := List.mem_map.mp hsub
            have : 0 ≤ pyRound ((i : ℚ) * offset) :=
              pyRound_nonneg (mul_nonneg (by positivity) hoffnn)
            omega
          · have := List.mem_takeWhile_imp hs
            simpa using this
        · have : r = (fullSize - 299, fullSize) := by simpa using hr'
          subst this
          exact ⟨by omega, by omega, le_refl _⟩
      · rw [List.getLast?_append_cons]
        rfl

/-- C9 witness: the two cases of `getSegmentRanges_spec` at concrete axis
lengths 100 (shorter than a tile) and 300. -/
theorem getSegmentRanges_spec_witness :
    getSegmentRanges 100 299 = [] ∧
    (getSegmentRanges 300 299).getLast? = some (1, 300) :=
  ⟨(getSegmentRanges_spec 100).1 (by decide),
   ((getSegmentRanges_spec 300).2 (by decide)).2⟩

/-! ### Angular ranges (`src/firecam/lib/img_archive.py`) -/

/-- Evaluation helper: `⌊q⌋ = n` from the two bounds. -/
theorem floorQ_eq (q : ℚ) (n : ℤ) (h1 : (n : ℚ) ≤ q) (h2 : q < n + 1) : ⌊q⌋ = n :=
  Int.floor_eq_iff.mpr ⟨h1, h2⟩

/-- Evaluation helper: `⌈q⌉ = n` from the two bounds. -/
theorem ceilQ_eq (q : ℚ) (n : ℤ) (h1 : (n : ℚ) - 1 < q) (h2 : q ≤ n) : ⌈q⌉ = n :=
  Int.ceil_eq_iff.mpr ⟨h1, h2⟩

/-- Evaluation helper for `pyFloorMod` with a positive modulus: provide the
quotient `d` and the remainder `r`. -/
theorem pyFloorMod_eq (x m r : ℚ) (d : ℤ) (hm : 0 < m) (hd : x - m * d = r)
    (h0 : 0 ≤ r) (h1 : r < m) : pyFloorMod x m = r := by
  have hfl : ⌊x / m⌋ = d := by
    apply floorQ_eq
    · rw [le_div_iff₀ hm]
      nlinarith
    · rw [div_lt_iff₀ hm]
      nlinarith
  rw [pyFloorMod, hfl]
  linarith

/-- Evaluation helper for `pyInt` on a nonnegative argument. -/
theorem pyInt_eq_nonneg (q : ℚ) (n : ℤ) (h0 : 0 ≤ q) (h1 : (n : ℚ) ≤ q)
    (h2 : q < n + 1) : pyInt q = n := by
  rw [pyInt, if_pos h0]
  exact floorQ_eq q n h1 h2

/-- Evaluation helper for `pyRound` when the fractional part is below 1/2. -/
theorem pyRound_eq_low (q : ℚ) (n : ℤ) (h1 : (n : ℚ) ≤ q) (h2 : q < n + 1/2) :
    pyRound q = n := by
  have hfl : ⌊q⌋ = n := floorQ_eq q n h1 (by linarith)
  rw [pyRound]
  simp only [hfl]
  rw [if_pos (by linarith)]

/-- Evaluation helper for `pyRound` when the fractional part is above 1/2. -/
theorem pyRound_eq_high (q : ℚ) (n : ℤ) (h1 : (n : ℚ) - 1/2 < q) (h2 : q < n) :
    pyRound q = n := by
  have hfl : ⌊q⌋ = n - 1 := floorQ_eq q (n - 1) (by push_cast; linarith) (by push_cast; linarith)
  rw [pyRound]
  simp only [hfl]
  rw [if_neg (by push_cast; linarith), if_pos (by push_cast; linarith)]
  omega


/-- Evaluation helper for `pyRound` at an exact half with even floor. -/
theorem pyRound_eq_half_even (q : ℚ) (n : ℤ) (hq : q = (n : ℚ) + 1/2)
    (hn : Even n) : pyRound q = n := by
  have hfl : ⌊q⌋ = n := floorQ_eq q n (by rw [hq]; linarith) (by rw [hq]; norm_num)
  rw [pyRound]
  simp only [hfl]
  rw [if_neg (by rw [hq]; norm_num), if_neg (by rw [hq]; norm_num), if_pos hn]

/-- On an integer input, Python float `%` agrees with integer `%`. -/
theorem pyFloorMod_intCast (n : ℤ) : pyFloorMod (n : ℚ) 360 = ((n % 360 : ℤ) : ℚ) := by
  have h0 : (0 : ℤ) ≤ n % 360 := by omega
  have h1 : n % 360 < 360 := by omega
  have hd : n - 360 * (n / 360) = n % 360 := by omega
  apply pyFloorMod_eq _ _ _ (n / 360) (by norm_num)
  · exact_mod_cast hd
  · exact_mod_cast h0
  · exact_mod_cast h1

/-- Embedding of `img_archive.unionAngleRanges`.  All angle arithmetic is done
with Python floats, modelled as exact rationals; `assert` statements in the
source are modelled as `none` results. -/
def unionAngleRanges (heading1 range1 heading2 range2 : ℤ) : Option (ℤ × ℤ) :=
  if range1 ≤ 0 ∨ range2 ≤ 0 then none else
  let rotationBase : ℚ := pyFloorMod ((heading1 : ℚ) - (range1 : ℚ) / 2) 360
  let maxHeading1 : ℤ := range1
  let minHeading2 : ℤ := (pyInt ((heading2 : ℚ) - (range2 : ℚ) / 2 - rotationBase)) % 360
  let maxHeading2 : ℤ := (⌈(heading2 : ℚ) + (range2 : ℚ) / 2 - rotationBase⌉) % 360
  if minHeading2 < maxHeading2 then
    -- angle2 does not straddle 0 in the rotated frame
    if maxHeading1 ≤ minHeading2 then none else
    let maxUnion : ℤ := max maxHeading1 maxHeading2
    let heading : ℤ := pyRound ((maxUnion : ℚ) / 2)
    let rangeOut : ℤ := maxUnion
    if rangeOut ≤ 0 then none else
    some ((pyRound ((heading : ℚ) + rotationBase)) % 360, ⌈min (rangeOut : ℚ) 360⌉)
  else
    -- angle2 straddles 0 in the rotated frame
    let minUnion : ℤ := minHeading2
    let maxUnion : ℤ := max maxHeading1 maxHeading2
    let rangeOut : ℤ := maxUnion + 360 - minUnion
    let heading : ℤ := pyRound ((minUnion : ℚ) + (rangeOut : ℚ) / 2)
    if rangeOut ≤ 0 then none else
    some ((pyRound ((heading : ℚ) + rotationBase)) % 360, ⌈min (rangeOut : ℚ) 360⌉)

/-- Concrete evaluation of the self-union at heading 91, width 21. -/
theorem unionAngleRanges_self_eval_91_21 :
    unionAngleRanges 91 21 91 21 = some (90, 21) := by
  have hrot : pyFloorMod (((91 : ℤ) : ℚ) - ((21 : ℤ) : ℚ) / 2) 360 = 161/2 :=
    pyFloorMod_eq _ _ _ 0 (by norm_num) (by norm_num) (by norm_num) (by norm_num)
  have hmin2 : pyInt (((91 : ℤ) : ℚ) - ((21 : ℤ) : ℚ) / 2 - 161/2) = 0 :=
    pyInt_eq_nonneg _ _ (by norm_num) (by norm_num) (by norm_num)
  have hmax2 : ⌈((91 : ℤ) : ℚ) + ((21 : ℤ) : ℚ) / 2 - 161/2⌉ = 21 :=
    ceilQ_eq _ _ (by norm_num) (by norm_num)
  simp only [unionAngleRanges, hrot, hmin2, hmax2]
  norm_num
  rw [show pyRound ((21 : ℚ) / 2) = 10 from
    pyRound_eq_half_even _ _ (by norm_num) ⟨5, by norm_num⟩]
  rw [show ((10 : ℤ) : ℚ) + 161/2 = (90 : ℚ) + 1/2 from by push_cast; norm_num]
  rw [pyRound_eq_half_even _ 90 (by norm_num) ⟨45, by norm_num⟩]
  decide

/-- C6 counterexample: for the odd angular width 21 at heading 91 (a pair
with `0 < 21 < 360`), the union of the interval with itself is `(90, 21)` —
the heading moves by one degree (double banker-style rounding of the
half-degree offsets), so the claimed round-trip identity fails. -/
theorem unionAngleRanges_self_odd_counterexample :
    unionAngleRanges 91 21 91 21 = some (90, 21) ∧
    unionAngleRanges 91 21 91 21 ≠ some (91, 21) ∧
    (0 : ℤ) < 21 ∧ (21 : ℤ) < 360 := by
  refine ⟨unionAngleRanges_self_eval_91_21, ?_, by norm_num, by norm_num⟩
  rw [unionAngleRanges_self_eval_91_21]
  intro hcontra
  simp only [Option.some.injEq, Prod.mk.injEq] at hcontra
  omega

/-- C6 amended: for an even angular width `w` with `0 < w < 360`, the union
of an angular interval with itself returns the same interval modulo
360-degree wrap: `unionAngleRanges h w h w = (h mod 360, w)`.  (For odd
widths the returned width is still `w` but the heading can shift by one
degree, as the counterexample shows.) -/
theorem unionAngleRanges_self_even (h w : ℤ) (h0 : 0 < w) (hlt : w < 360)
    (heven : Even w) :
    unionAngleRanges h w h w = some (h % 360, w) := by
  obtain ⟨k, hk⟩ := heven
  have hk2 : w = 2 * k := by omega
  have hw2 : (w : ℚ) / 2 = ((k : ℤ) : ℚ) := by
    rw [hk2]; push_cast; ring
  obtain ⟨R, hR⟩ : ∃ R : ℤ, R = (h - k) % 360 := ⟨_, rfl⟩
  have hR0 : 0 ≤ R := by omega
  have hR1 : R < 360 := by omega
  have hrot : pyFloorMod ((h : ℚ) - (w : ℚ) / 2) 360 = ((R : ℤ) : ℚ) := by
    rw [hw2, show (h : ℚ) - ((k : ℤ) : ℚ) = (((h - k : ℤ)) : ℚ) by push_cast; ring,
      pyFloorMod_intCast, hR]
  have hmin2 : pyInt ((h : ℚ) - (w : ℚ) / 2 - ((R : ℤ) : ℚ)) = h - k - R := by
    rw [hw2, show (h : ℚ) - ((k : ℤ) : ℚ) - ((R : ℤ) : ℚ) = (((h - k - R : ℤ)) : ℚ) by
      push_cast; ring]
    exact pyInt_intCast _
  have hmin2e : (h - k - R) % 360 = 0 := by omega
  have hmax2 : ⌈(h : ℚ) + (w : ℚ) / 2 - ((R : ℤ) : ℚ)⌉ = h + k - R := by
    rw [hw2, show (h : ℚ) + ((k : ℤ) : ℚ) - ((R : ℤ) : ℚ) = (((h + k - R : ℤ)) : ℚ) by
      push_cast; ring]
    exact Int.ceil_intCast _
  have hmax2e : (h + k - R) % 360 = w := by omega
  have hhead : pyRound ((w : ℚ) / 2) = k := by
    rw [hw2]; exact pyRound_intCast _
  have hfin : pyRound (((k : ℤ) : ℚ) + ((R : ℤ) : ℚ)) = k + R := by
    rw [show ((k : ℤ) : ℚ) + ((R : ℤ) : ℚ) = (((k + R : ℤ)) : ℚ) by push_cast; ring]
    exact pyRound_intCast _
  have hfine : (k + R) % 360 = h % 360 := by omega
  have hceil : ⌈min ((w : ℤ) : ℚ) 360⌉ = w := by
    rw [min_eq_left (by exact_mod_cast hlt.le)]
    exact Int.ceil_intCast _
  simp only [unionAngleRanges, hrot, hmin2, hmax2, hmin2e, hmax2e]
  rw [if_neg (by omega), if_pos (by omega), if_neg (by omega), max_self, hhead, hfin,
    if_neg (by omega), hfine, hceil]

/-- C6 witness for the amended theorem, at heading 91 and even width 20:
`unionAngleRanges 91 20 91 20 = (91, 20)`. -/
theorem unionAngleRanges_self_even_witness :
    unionAngleRanges 91 20 91 20 = some (91, 20) := by
  have := unionAngleRanges_self_even 91 20 (by norm_num) (by norm_num) ⟨10, by norm_num⟩
  simpa using this

/-! ### Historical post-filter
(`src/firecam/detection_policies/inception_and_threshold.py`) -/

/-- Seconds since local midnight, `(hour*60 + minute)*60 + second`, computed
from an epoch timestamp at a fixed UTC offset `tzOffset` (the source uses
`datetime.fromtimestamp`, i.e. the process's local timezone). -/
def secondsInDay (tzOffset timestamp : ℤ) : ℤ := (timestamp + tzOffset) % 86400

/-- One row of the `scores` table, as inserted by
`InceptionV3AndHistoricalThreshold._recordScores`: the table has no heading
and no model-id column in this code. -/
structure ScoreRow where
  camera : String
  timestamp : ℤ
  minX : ℤ
  minY : ℤ
  maxX : ℤ
  maxY : ℤ
  score : ℚ
  minusMinutes : ℤ
  secondsInDay : ℤ
deriving DecidableEq

/-- One classified segment (tile) with its score, as consumed by
`_postFilter`. -/
structure Segment where
  minX : ℤ
  minY : ℤ
  maxX : ℤ
  maxY : ℤ
  score : ℚ
deriving DecidableEq

/-- One row of the grouped historical-scores query result
(`GROUP BY MinX,MinY,MaxX,MaxY` with `count(*)`, `avg(score)`,
`max(score)`). -/
structure GroupRow where
  minx : ℤ
  miny : ℤ
  maxx : ℤ
  maxy : ℤ
  cnt : ℕ
  avgs : ℚ
  maxs : ℚ
deriving DecidableEq

/-- The `WHERE` clause of the historical-scores query in `_postFilter`:
same camera, timestamp strictly between 3.5 days (`60*60*int(24*3.5)`
seconds) and 12 hours before the current image, seconds-in-day strictly
within one hour of the current image's. -/
def histQueryFilter (cam : String) (timestamp sid : ℤ) (r : ScoreRow) : Bool :=
  decide (r.camera = cam) && decide (r.timestamp > timestamp - 60 * 60 * 84) &&
    decide (r.timestamp < timestamp - 60 * 60 * 12) &&
    decide (r.secondsInDay > sid - 60 * 60) && decide (r.secondsInDay < sid + 60 * 60)

/-- The rows of the `scores` table selected by the `_postFilter` query. -/
def histFiltered (scores : List ScoreRow) (cam : String) (timestamp sid : ℤ) :
    List ScoreRow :=
  scores.filter (fun r => histQueryFilter cam timestamp sid r)

/-- SQL `max(score)` over a group of rows (groups are always nonempty; the
`[]` case is unreachable). -/
def scoreMax : List ScoreRow → ℚ
  | [] => 0
  | r :: rs => rs.foldl (fun m x => max m x.score) r.score

/-- The bounding box of a score row. -/
def bboxOf (r : ScoreRow) : ℤ × ℤ × ℤ × ℤ := (r.minX, r.minY, r.maxX, r.maxY)

/-- The grouped result of the `_postFilter` historical query: one `GroupRow`
per distinct bounding box among the filtered rows. -/
def histGroups (scores : List ScoreRow) (cam : String) (timestamp sid : ℤ) :
    List GroupRow :=
  let filtered := histFiltered scores cam timestamp sid
  ((filtered.map bboxOf).dedup).map fun b =>
    let matching := filtered.filter (fun r => decide (bboxOf r = b))
    { minx := b.1, miny := b.2.1, maxx := b.2.2.1, maxy := b.2.2.2,
      cnt := matching.length,
      avgs := (matching.map (·.score)).sum / matching.length,
      maxs := scoreMax matching }

/-- The maximum stored score with the given bounding box in the query
window (the `M` of the spec). -/
def histMaxFor (scores : List ScoreRow) (cam : String) (timestamp sid : ℤ)
    (b : ℤ × ℤ × ℤ × ℤ) : ℚ :=
  scoreMax ((histFiltered scores cam timestamp sid).filter (fun r => decide (bboxOf r = b)))

/-- The bbox-equality test between a segment and a grouped history row, as in
the inner loop of `_postFilter`. -/
def segMatchesRow (s : Segment) (row : GroupRow) : Bool :=
  decide (row.minx = s.minX) && decide (row.miny = s.minY) &&
    decide (row.maxx = s.maxX) && decide (row.maxy = s.maxY)

/-- The threshold computed by `_postFilter` for a history row:
`max((maxs+1)/2, maxs + 0.2)`. -/
def rowThreshold (row : GroupRow) : ℚ := max ((row.maxs + 1) / 2) (row.maxs + 1/5)

/-- The inner `for row in dbResult` loop of `_postFilter`, threading the
`maxFireSegment`/`maxFireScore` accumulator. -/
def postFilterInner (s : Segment) :
    List GroupRow → Option (Segment × GroupRow) → ℚ → Option (Segment × GroupRow) × ℚ
  | [], best, bestScore => (best, bestScore)
  | row :: rows, best, bestScore =>
    if segMatchesRow s row ∧ rowThreshold row < s.score ∧ bestScore < s.score then
      postFilterInner s rows (some (s, row)) s.score
    else
      postFilterInner s rows best bestScore

/-- The outer `for segmentInfo in segments` loop of `_postFilter`, with its
`break` once scores drop below 0.5. -/
def postFilterOuter (db : List GroupRow) :
    List Segment → Option (Segment × GroupRow) → ℚ → Option (Segment × GroupRow) × ℚ
  | [], best, bestScore => (best, bestScore)
  | s :: rest, best, bestScore =>
    if s.score < 1/2 then (best, bestScore)
    else
      let acc := postFilterInner s db best bestScore
      postFilterOuter db rest acc.1 acc.2

/-- Embedding of `InceptionV3AndHistoricalThreshold._postFilter`: the
selected fire segment together with the history row that admitted it (whose
`avgs`/`maxs`/`cnt` are attached to the segment in the source).  The source
indexes `segments[0]`, so the empty list is mapped to `none` (callers pass
the classifier output, which is nonempty). -/
def postFilter (scores : List ScoreRow) (cam : String) (timestamp tzOffset : ℤ)
    (segments : List Segment) : Option (Segment × GroupRow) :=
  match segments with
  | [] => none
  | s0 :: _ =>
    if s0.score < 1/2 then none
    else
      let sid := secondsInDay tzOffset timestamp
      (postFilterOuter (histGroups scores cam timestamp sid) segments none 0).1

/-- Modelled from the spec: the set of stored scores the claim says the
query considers — identical camera, timestamp between 7.5 days and 12 hours
before the current image, seconds-in-day within one hour.  (The claim's
"same modelId, same heading" restrictions are not even expressible here: the
`scores` table written by `_recordScores` has no such columns.) -/
def specHistConsidered (cam : String) (timestamp sid : ℤ) (r : ScoreRow) : Bool :=
  decide (r.camera = cam) && decide (timestamp - 648000 ≤ r.timestamp) &&
    decide (r.timestamp ≤ timestamp - 43200) &&
    decide (sid - 3600 ≤ r.secondsInDay) && decide (r.secondsInDay ≤ sid + 3600)

/-- A segment "exceeds its threshold": some grouped history row has its
bounding box and its raw score is strictly above that row's threshold. -/
def SegAccepted (db : List GroupRow) (s : Segment) : Prop :=
  ∃ row ∈ db, segMatchesRow s row = true ∧ rowThreshold row < s.score

theorem postFilterInner_snd_le (s : Segment) (rows : List GroupRow)
    (best : Option (Segment × GroupRow)) (bestScore : ℚ) :
    bestScore ≤ (postFilterInner s rows best bestScore).2 := by
  induction rows generalizing best bestScore with
  | nil => exact le_refl _
  | cons row rows ih =>
    rw [postFilterInner]
    split
    · next hc => exact le_trans hc.2.2.le (ih _ _)
    · exact ih _ _

theorem postFilterInner_fst (s : Segment) (rows : List GroupRow)
    (best : Option (Segment × GroupRow)) (bestScore : ℚ) (p : Segment × GroupRow)
    (h : (postFilterInner s rows best bestScore).1 = some p) :
    best = some p ∨
      (p.1 = s ∧ p.2 ∈ rows ∧ segMatchesRow s p.2 = true ∧ rowThreshold p.2 < s.score) := by
  induction rows generalizing best bestScore with
  | nil => exact Or.inl h
  | cons row rows ih =>
    rw [postFilterInner] at h
    split at h
    · next hc =>
      rcases ih _ _ h with h1 | h1
      · right
        have hp : p = (s, row) := by
          injection h1 with h1
          exact h1.symm
        subst hp
        exact ⟨rfl, List.mem_cons_self _ _, hc.1, hc.2.1⟩
      · exact Or.inr ⟨h1.1, List.mem_cons_of_mem _ h1.2.1, h1.2.2⟩
    · rcases ih _ _ h with h1 | h1
      · exact Or.inl h1
      · exact Or.inr ⟨h1.1, List.mem_cons_of_mem _ h1.2.1, h1.2.2⟩

theorem postFilterInner_link (s : Segment) (rows : List GroupRow)
    (best : Option (Segment × GroupRow)) (bestScore : ℚ)
    (hbase : ∀ p, best = some p → bestScore = p.1.score) :
    ∀ p, (postFilterInner s rows best bestScore).1 = some p →
      (postFilterInner s rows best bestScore).2 = p.1.score := by
  induction rows generalizing best bestScore with
  | nil => exact hbase
  | cons row rows ih =>
    rw [postFilterInner]
    split
    · exact ih _ _ (fun p hp => by injection hp with hp; rw [← hp])
    · exact ih _ _ hbase

theorem postFilterInner_accept (s : Segment) (rows : List GroupRow)
    (best : Option (Segment × GroupRow)) (bestScore : ℚ)
    (hacc : ∃ row ∈ rows, segMatchesRow s row = true ∧ rowThreshold row < s.score) :
    s.score ≤ (postFilterInner s rows best bestScore).2 := by
  induction rows generalizing best bestScore with
  | nil => simp at hacc
  | cons row rows ih =>
    obtain ⟨row2, hrow2, hm, hthr⟩ := hacc
    rw [postFilterInner]
    rcases List.mem_cons.mp hrow2 with heq | hmem
    · subst heq
      split
      · exact postFilterInner_snd_le _ _ _ _
      · next hc =>
        have hle : s.score ≤ bestScore := by
          by_contra hlt
          exact hc ⟨hm, hthr, lt_of_not_le hlt⟩
        exact le_trans hle (postFilterInner_snd_le _ _ _ _)
    · split
      · exact ih _ _ ⟨row2, hmem, hm, hthr⟩
      · exact ih _ _ ⟨row2, hmem, hm, hthr⟩

theorem postFilterOuter_snd_le (db : List GroupRow) (l : List Segment)
    (best : Option (Segment × GroupRow)) (bestScore : ℚ) :
    bestScore ≤ (postFilterOuter db l best bestScore).2 := by
  induction l generalizing best bestScore with
  | nil => exact le_refl _
  | cons s rest ih =>
    rw [postFilterOuter]
    split
    · exact le_refl _
    · exact le_trans (postFilterInner_snd_le _ _ _ _) (ih _ _)

theorem postFilterOuter_fst (db : List GroupRow) (l : List Segment)
    (best : Option (Segment × GroupRow)) (bestScore : ℚ) (p : Segment × GroupRow)
    (h : (postFilterOuter db l best bestScore).1 = some p) :
    best = some p ∨
      (p.1 ∈ l ∧ p.2 ∈ db ∧ segMatchesRow p.1 p.2 = true ∧ rowThreshold p.2 < p.1.score) := by
  induction l generalizing best bestScore with
  | nil => exact Or.inl h
  | cons s rest ih =>
    rw [postFilterOuter] at h
    split at h
    · exact Or.inl h
    · rcases ih _ _ h with h1 | h1
      · rcases postFilterInner_fst _ _ _ _ _ h1 with h2 | h2
        · exact Or.inl h2
        · refine Or.inr ⟨?_, h2.2.1, ?_, ?_⟩
          · rw [h2.1]; exact List.mem_cons_self _ _
          · rw [h2.1]; exact h2.2.2.1
          · rw [h2.1]; exact h2.2.2.2
      · exact Or.inr ⟨List.mem_cons_of_mem _ h1.1, h1.2⟩

theorem postFilterOuter_link (db : List GroupRow) (l : List Segment)
    (best : Option (Segment × GroupRow)) (bestScore : ℚ)
    (hbase : ∀ p, best = some p → bestScore = p.1.score) :
    ∀ p, (postFilterOuter db l best bestScore).1 = some p →
      (postFilterOuter db l best bestScore).2 = p.1.score := by
  induction l generalizing best bestScore with
  | nil => exact hbase
  | cons s rest ih =>
    rw [postFilterOuter]
    split
    · exact hbase
    · exact ih _ _ (postFilterInner_link _ _ _ _ hbase)

theorem rowThreshold_ge_half (row : GroupRow) (h : 0 ≤ row.maxs) :
    1/2 ≤ rowThreshold row :=
  le_trans (by linarith) (le_max_left _ _)

theorem postFilterOuter_accept (db : List GroupRow) (l : List Segment)
    (best : Option (Segment × GroupRow)) (bestScore : ℚ)
    (hth : ∀ row ∈ db, 0 ≤ row.maxs)
    (hsorted : l.Pairwise (fun a b => b.score ≤ a.score))
    (s2 : Segment) (hs2 : s2 ∈ l) (hacc : SegAccepted db s2) :
    s2.score ≤ (postFilterOuter db l best bestScore).2 := by
  obtain ⟨row, hrow, hm, hthr⟩ := hacc
  have hhalf : 1/2 < s2.score := lt_of_le_of_lt (rowThreshold_ge_half row (hth row hrow)) hthr
  induction l generalizing best bestScore with
  | nil => simp at hs2
  | cons s rest ih =>
    rw [postFilterOuter]
    rcases List.mem_cons.mp hs2 with heq | hmem
    · subst heq
      rw [if_neg (by linarith)]
      exact le_trans (postFilterInner_accept _ _ _ _ ⟨row, hrow, hm, hthr⟩)
        (postFilterOuter_snd_le _ _ _ _)
    · have hle : s2.score ≤ s.score := (List.pairwise_cons.mp hsorted).1 s2 hmem
      rw [if_neg (by linarith)]
      exact ih _ _ (List.pairwise_cons.mp hsorted).2 hmem

theorem le_foldl_max (l : List ScoreRow) (m : ℚ) :
    m ≤ l.foldl (fun m x => max m x.score) m := by
  induction l generalizing m with
  | nil => exact le_refl _
  | cons r rs ih => exact le_trans (le_max_left _ _) (ih _)

theorem scoreMax_nonneg (l : List ScoreRow) (hne : l ≠ [])
    (hpos : ∀ r ∈ l, 0 ≤ r.score) : 0 ≤ scoreMax l := by
  match l with
  | [] => exact absurd rfl hne
  | r :: rs =>
    rw [scoreMax]
    exact le_trans (hpos r (List.mem_cons_self _ _)) (le_foldl_max _ _)

theorem histGroups_mem (scores : List ScoreRow) (cam : String) (t sid : ℤ)
    (row : GroupRow) (h : row ∈ histGroups scores cam t sid) :
    row.maxs = histMaxFor scores cam t sid (row.minx, row.miny, row.maxx, row.maxy) ∧
    ∃ r, r ∈ histFiltered scores cam t sid ∧
      bboxOf r = (row.minx, row.miny, row.maxx, row.maxy) := by
  simp only [histGroups] at h
  obtain ⟨b, hb, hrow⟩ := List.mem_map.mp h
  have hbb : (b.1, b.2.1, b.2.2.1, b.2.2.2) = b := rfl
  subst hrow
  constructor
  · simp only [histMaxFor, hbb]
  · have hb2 : b ∈ (histFiltered scores cam t sid).map bboxOf := List.mem_dedup.mp hb
    obtain ⟨r, hr, hrb⟩ := List.mem_map.mp hb2
    exact ⟨r, hr, by simp only [hbb]; exact hrb⟩

theorem histGroups_maxs_nonneg (scores : List ScoreRow) (cam : String) (t sid : ℤ)
    (hpos : ∀ r ∈ scores, 0 ≤ r.score) :
    ∀ row ∈ histGroups scores cam t sid, 0 ≤ row.maxs := by
  intro row hrow
  obtain ⟨hmax, r, hr, hrb⟩ := histGroups_mem scores cam t sid row hrow
  rw [hmax, histMaxFor]
  apply scoreMax_nonneg
  · intro hemp
    have : r ∈ (histFiltered scores cam t sid).filter
        (fun r2 => decide (bboxOf r2 = (row.minx, row.miny, row.maxx, row.maxy))) :=
      List.mem_filter.mpr ⟨hr, by simp [hrb]⟩
    rw [hemp] at this
    simp at this
  · intro r2 hr2
    exact hpos r2 (List.mem_filter.mp (List.mem_filter.mp hr2).1).1

/-- C3: whenever `_postFilter` promotes a segment `s` (returning it with the
history row `row` whose statistics get attached), that row has `s`'s exact
bounding box, its `maxs` is the maximum stored score for that bounding box in
the queried window (the `M` of the claim), and `s.score` is strictly above
`max(0.5, (M+1)/2, M+0.2)`; moreover among all segments exceeding their
thresholds, the selected one has the maximal raw score.  Hypotheses: stored
scores are nonnegative (they are classifier probabilities) and the segment
list is sorted by descending score (guaranteed by `_segmentAndClassify`). -/
theorem postFilter_historical_threshold (scores : List ScoreRow) (cam : String)
    (timestamp tzOffset : ℤ) (segments : List Segment)
    (hpos : ∀ r ∈ scores, 0 ≤ r.score)
    (hsorted : segments.Pairwise (fun a b => b.score ≤ a.score))
    (s : Segment) (row : GroupRow)
    (hres : postFilter scores cam timestamp tzOffset segments = some (s, row)) :
    s ∈ segments ∧ segMatchesRow s row = true ∧
    row.maxs = histMaxFor scores cam timestamp (secondsInDay tzOffset timestamp)
      (s.minX, s.minY, s.maxX, s.maxY) ∧
    max (1/2) (max ((row.maxs + 1) / 2) (row.maxs + 1/5)) < s.score ∧
    ∀ s2 ∈ segments,
      SegAccepted (histGroups scores cam timestamp (secondsInDay tzOffset timestamp)) s2 →
        s2.score ≤ s.score := by
  match segments, hsorted with
  | [], _ => exact absurd hres (by simp [postFilter])
  | s0 :: rest, hsorted =>
    rw [postFilter] at hres
    split at hres
    · exact absurd hres (by simp)
    · set sid := secondsInDay tzOffset timestamp with hsid
      set db := histGroups scores cam timestamp sid with hdb
      have hth : ∀ r2 ∈ db, 0 ≤ r2.maxs := histGroups_maxs_nonneg scores cam timestamp sid hpos
      rcases postFilterOuter_fst db (s0 :: rest) none 0 (s, row) hres with hcontra | hmain
      · exact absurd hcontra (by simp)
      · obtain ⟨hmem, hrowdb, hmatch, hthr⟩ := hmain
        have hbbeq : (row.minx, row.miny, row.maxx, row.maxy) =
            (s.minX, s.minY, s.maxX, s.maxY) := by
          simp only [segMatchesRow, Bool.and_eq_true, decide_eq_true_eq] at hmatch
          simp [hmatch.1.1.1, hmatch.1.1.2, hmatch.1.2, hmatch.2]
        have hmaxs : 0 ≤ row.maxs := hth row hrowdb
        refine ⟨hmem, hmatch, ?_, ?_, ?_⟩
        · rw [(histGroups_mem scores cam timestamp sid row hrowdb).1, hbbeq]
        · have h1 : 1/2 < s.score :=
            lt_of_le_of_lt (rowThreshold_ge_half row hmaxs) hthr
          have h2 : (row.maxs + 1) / 2 < s.score :=
            lt_of_le_of_lt (le_trans (le_max_left _ _) (le_refl _)) hthr
          have h3 : row.maxs + 1/5 < s.score :=
            lt_of_le_of_lt (le_max_right _ _) hthr
          simp only [max_lt_iff]
          exact ⟨h1, lt_of_le_of_lt (le_max_left _ _) hthr, h3⟩
        · intro s2 hs2 hacc
          have hlink := postFilterOuter_link db (s0 :: rest) none 0 (by intro p hp; cases hp)
            (s, row) hres
          have := postFilterOuter_accept db (s0 :: rest) none 0 hth hsorted s2 hs2 hacc
          rw [hlink] at this
          exact this

/-- C3 witness: one stored score of 0.1 for the bounding box two days
earlier at the same time of day; a new raw score 0.9 beats the threshold
`max(0.5, 0.55, 0.3)` and is promoted, with the conclusion supplied by
`postFilter_historical_threshold`. -/
theorem postFilter_historical_threshold_witness :
    ∃ s row,
      postFilter [⟨"c", 800000, 0, 0, 299, 299, 1/10, 0, 49600⟩] "c" 1000000 0
        [⟨0, 0, 299, 299, 9/10⟩] = some (s, row) ∧
      max (1/2) (max ((row.maxs + 1) / 2) (row.maxs + 1/5)) < s.score := by
  have hres : postFilter [⟨"c", 800000, 0, 0, 299, 299, 1/10, 0, 49600⟩] "c" 1000000 0
      [⟨0, 0, 299, 299, 9/10⟩] =
      some (⟨0, 0, 299, 299, 9/10⟩, ⟨0, 0, 299, 299, 1, (1/10) / 1, 1/10⟩) := by
    norm_num [postFilter, postFilterOuter, postFilterInner, histGroups, histFiltered,
      histQueryFilter, secondsInDay, scoreMax, bboxOf, segMatchesRow, rowThreshold,
      List.dedup_cons_of_not_mem, List.dedup_nil, List.filter, max_lt_iff, lt_max_iff]
  refine ⟨_, _, hres, ?_⟩
  exact (postFilter_historical_threshold _ _ _ _ _ (by norm_num) (by simp) _ _ hres).2.2.2.1

/-- C4 counterexample: a stored score for the same camera and time of day,
4.63 days old (timestamp `t - 400000`), lies inside the window the claim
describes (between 7.5 days and 12 hours before `t`) yet is *not* considered
by the query, which only reaches back `60*60*int(24*3.5) = 3.5` days; the
rows also carry no modelId or heading for the claimed equality filters. -/
theorem histQuery_window_counterexample :
    specHistConsidered "c" 1000000 49600 ⟨"c", 600000, 0, 0, 299, 299, 1, 0, 49600⟩ = true ∧
    histQueryFilter "c" 1000000 49600 ⟨"c", 600000, 0, 0, 299, 299, 1, 0, 49600⟩ = false ∧
    histFiltered [⟨"c", 600000, 0, 0, 299, 299, 1, 0, 49600⟩] "c" 1000000 49600 = [] := by
  refine ⟨by decide, by decide, by decide⟩

/-- C4 amended: the historical query considers exactly the stored scores
with the same camera name whose timestamp lies strictly between 3.5 days and
12 hours before the current image and whose seconds-in-day is strictly
within one hour of the current image's; rows failing the window have no
effect.  (The `scores` table has no modelId or heading column, so no such
restriction exists.) -/
theorem histFiltered_considers_iff (scores : List ScoreRow) (cam : String)
    (t sid : ℤ) (r : ScoreRow) :
    (r ∈ histFiltered scores cam t sid ↔
      r ∈ scores ∧ r.camera = cam ∧ t - 302400 < r.timestamp ∧ r.timestamp < t - 43200 ∧
        sid - 3600 < r.secondsInDay ∧ r.secondsInDay < sid + 3600) ∧
    (∀ r2 : ScoreRow, histQueryFilter cam t sid r2 = false →
      histFiltered (r2 :: scores) cam t sid = histFiltered scores cam t sid) := by
  constructor
  · rw [histFiltered, List.mem_filter]
    simp only [histQueryFilter, Bool.and_eq_true, decide_eq_true_eq, gt_iff_lt]
    constructor
    · rintro ⟨h1, ⟨⟨⟨h2, h3⟩, h4⟩, h5⟩, h6⟩
      exact ⟨h1, h2, by omega, by omega, by omega, by omega⟩
    · rintro ⟨h1, h2, h3, h4, h5, h6⟩
      exact ⟨h1, ⟨⟨⟨h2, by omega⟩, by omega⟩, by omega⟩, by omega⟩
  · intro r2 h2
    rw [histFiltered, histFiltered, List.filter_cons]
    simp [h2]

/-- C4 witness: a row for a different camera is filtered out, so prepending
it leaves the query result unchanged (second part of
`histFiltered_considers_iff` at a concrete input). -/
theorem histFiltered_considers_iff_witness :
    histFiltered [⟨"x", 800000, 0, 0, 299, 299, 1, 0, 49600⟩] "c" 1000000 49600 =
      histFiltered [] "c" 1000000 49600 :=
  (histFiltered_considers_iff [] "c" 1000000 49600
      ⟨"x", 800000, 0, 0, 299, 299, 1, 0, 49600⟩).2
    ⟨"x", 800000, 0, 0, 299, 299, 1, 0, 49600⟩ (by decide)

/-! ### Probables deduplication (`src/smoke-classifier/detect_fire.py`) -/

/-- One row of the `probables` table, as inserted by `recordProbables`. -/
structure ProbableRow where
  camera : String
  heading : ℤ
  timestamp : ℤ
  minX : ℤ
  minY : ℤ
  maxX : ℤ
  maxY : ℤ
  score : ℚ
  imageID : String
  modelId : String
deriving DecidableEq

/-- Embedding of `isDuplicateProbables`: the query selects probables rows
with this camera and heading whose timestamp lies strictly inside the hour
before the current timestamp, and the function reports whether any exist. -/
def isDuplicateProbables (probables : List ProbableRow) (cameraID : String)
    (heading timestamp : ℤ) : Bool :=
  decide (0 < (probables.filter (fun r =>
    decide (r.camera = cameraID) && decide (r.heading = heading) &&
      decide (timestamp - 60 * 60 < r.timestamp) && decide (r.timestamp < timestamp))).length)

/-- Embedding of the state effect of `recordProbables`: the probables row is
added unless running stateless (the image upload is not modelled). -/
def recordProbables (stateless : Bool) (probables : List ProbableRow)
    (row : ProbableRow) : List ProbableRow :=
  if stateless then probables else probables ++ [row]

/-- Embedding of the candidate-handling block of `main`
(`detect_fire.py` lines 1136–1139): `recordProbables` runs first, then
`fireDetected` (the composition stage) runs only when the candidate is
neither a duplicate nor stateless.  The boolean in the result records
whether `fireDetected` was invoked. -/
def mainCandidateStep (stateless : Bool) (probables : List ProbableRow)
    (cameraID : String) (heading timestamp : ℤ) (seg : Segment)
    (imageID modelId : String) : List ProbableRow × Bool :=
  let newRow : ProbableRow :=
    ⟨cameraID, heading, timestamp, seg.minX, seg.minY, seg.maxX, seg.maxY, seg.score,
      imageID, modelId⟩
  let probables1 := recordProbables stateless probables newRow
  if ¬(isDuplicateProbables probables1 cameraID heading timestamp = true ∨ stateless = true)
  then (probables1, true)
  else (probables1, false)

/-! ### Recent-detection intersection (`src/smoke-classifier/detect_fire.py`) -/

/-- A polygon as a list of vertices.  The source manipulates polygons through
the shapely library, which is passed into the definitions below as an
explicit intersection function. -/
abbrev Polygon : Type := List (ℚ × ℚ)

/-- One row of the `detections` table as read back by
`getRecentDetections` (fields used by `intersectRecentDetections`). -/
structure DetectionEntry where
  camera : String
  timestamp : ℤ
  polygon : Polygon
  sourcePolygons : List Polygon
deriving DecidableEq

/-- Insertion into a timestamp-descending list (models the SQL
`order by timestamp desc`). -/
def insertByTsDesc (d : DetectionEntry) : List DetectionEntry → List DetectionEntry
  | [] => [d]
  | x :: xs => if x.timestamp < d.timestamp then d :: x :: xs else x :: insertByTsDesc d xs

/-- Sort detections by descending timestamp (models the SQL
`order by timestamp desc`). -/
def sortByTsDesc : List DetectionEntry → List DetectionEntry
  | [] => []
  | x :: xs => insertByTsDesc x (sortByTsDesc xs)

/-- Embedding of `getRecentDetections`: all detections with
`timestamp > now - 15 minutes`, most recent first. -/
def getRecentDetections (detections : List DetectionEntry) (timestamp : ℤ) :
    List DetectionEntry :=
  sortByTsDesc (detections.filter (fun d => decide (timestamp - 15 * 60 < d.timestamp)))

/-- Embedding of `intersectRecentDetections`: walk the recent detections in
query order and return, for the *first* one whose polygon intersects the
triangle, the intersection together with that detection's source polygons;
`none` when no recent detection intersects.  `polyIntersect` is the shapely
`getPolygonIntersection` (returning `none` for empty or zero-area
intersections). -/
def intersectRecentDetections (polyIntersect : Polygon → Polygon → Option Polygon)
    (detections : List DetectionEntry) (timestamp : ℤ) (triangle : Polygon) :
    Option (Polygon × List Polygon) :=
  (getRecentDetections detections timestamp).findSome? fun alert =>
    match polyIntersect triangle alert.polygon with
    | some intersection => some (intersection, alert.sourcePolygons)
    | none => none

/-- The fixed coastline polygon of `intersectLand`. -/
def landVertices : Polygon := [
  (42.252, -114.000), (42.252, -124.411), (41.996, -124.211), (41.814, -124.231),
  (41.784, -124.255), (41.746, -124.203), (41.737, -124.159), (41.657, -124.134),
  (41.593, -124.100), (41.562, -124.096), (41.546, -124.075), (41.531, -124.080),
  (41.437, -124.063), (41.286, -124.090), (41.228, -124.086), (41.226, -124.108),
  (41.157, -124.101), (41.156, -124.135), (41.138, -124.157), (41.100, -124.162),
  (41.070, -124.158), (41.031, -124.116), (40.931, -124.131), (40.868, -124.159),
  (40.844, -124.077), (40.802, -124.135), (40.796, -124.181), (40.754, -124.194),
  (40.723, -124.222), (40.688, -124.201), (40.691, -124.280), (40.443, -124.411),
  (40.242, -124.325), (39.750, -123.825), (39.494, -123.765), (39.362, -123.822),
  (39.285, -123.798), (38.936, -123.723), (38.236, -122.972), (38.026, -123.001),
  (37.908, -122.649), (37.767, -122.512), (37.497, -122.490), (37.327, -122.397),
  (37.213, -122.419), (36.946, -122.078), (36.946, -121.892), (36.788, -121.776),
  (36.660, -121.826), (36.576, -121.975), (36.546, -121.934), (36.515, -121.947),
  (36.408, -121.918), (36.306, -121.901), (36.237, -121.818), (36.156, -121.671),
  (36.020, -121.570), (36.003, -121.504), (35.881, -121.456), (35.770, -121.325),
  (35.714, -121.312), (35.671, -121.283), (35.642, -121.200), (35.631, -121.159),
  (35.461, -121.001), (35.445, -120.901), (35.366, -120.866), (35.255, -120.897),
  (35.163, -120.762), (35.164, -120.691), (35.114, -120.635), (35.010, -120.639),
  (34.903, -120.670), (34.884, -120.640), (34.859, -120.608), (34.758, -120.635),
  (34.705, -120.601), (34.568, -120.636), (34.540, -120.549), (34.457, -120.470),
  (34.464, -120.093), (34.434, -119.953), (34.407, -119.860), (34.395, -119.715),
  (34.420, -119.601), (34.353, -119.434), (34.276, -119.304), (34.153, -119.219),
  (34.084, -119.052), (34.009, -118.808), (34.037, -118.533), (33.824, -118.387),
  (33.773, -118.425), (33.707, -118.289), (33.768, -118.167), (33.617, -117.937),
  (33.546, -117.801), (33.460, -117.714), (33.428, -117.628), (33.378, -117.586),
  (33.204, -117.390), (33.026, -117.287), (32.916, -117.256), (32.849, -117.259),
  (32.843, -117.286), (32.771, -117.255), (32.664, -117.242), (32.592, -117.131),
  (32.536, -117.124), (32.100, -116.950), (32.100, -114.000)]

/-- Embedding of `intersectLand`: clip a triangle against the fixed
coastline polygon, via the shapely intersection function. -/
def intersectLand (polyIntersect : Polygon → Polygon → Option Polygon)
    (triangle : Polygon) : Option Polygon :=
  polyIntersect triangle landVertices

/-! ### Alert composition (`src/smoke-classifier/detect_fire.py`, `fireDetected`) -/

/-- Embedding of `img_archive.isPTZ`, which returns `False` for every camera
in this code. -/
def isPTZ (_cameraID : String) : Bool := false

/-- Embedding of `detect_fire.isProto`. -/
def isProto (cameraID : String) : Bool := isPTZ cameraID

/-- Embedding of `publishAlert`: alert (and notification) gate. -/
def publishAlert (weatherThreshold : ℚ) (cameraID : String) (weatherScore : ℚ) : Bool :=
  decide (weatherThreshold < weatherScore) && !(isProto cameraID)

/-- Python `round(x, 4)`. -/
def roundQ4 (q : ℚ) : ℚ := (pyRound (q * 10000) : ℚ) / 10000

/-- The fire segment handed to `fireDetected` (bounding box, raw score, and
the optional adjusted score some detection policies attach). -/
structure FireSegment where
  minX : ℤ
  minY : ℤ
  maxX : ℤ
  maxY : ℤ
  score : ℚ
  adjScore : Option ℚ
deriving DecidableEq

/-- Embedding of `checkWeatherInfo`.  The external weather fetch
(`weather.getWeatherData`) is represented by the two optional weather
records, and the feature normalization plus TensorFlow model
(`weather.normalizeWeather`, `weatherModel.predict`) by the black-box
`predict`.  When either weather record is missing the function returns 1. -/
def checkWeatherInfo {W : Type} (predict : ℚ → ℕ → W → W → ℚ)
    (weatherCentroid weatherCamera : Option W) (fireSegment : FireSegment)
    (numPolys : ℕ) : ℚ :=
  match weatherCentroid, weatherCamera with
  | some wCentroid, some wCamera =>
      predict (fireSegment.adjScore.getD fireSegment.score) numPolys wCentroid wCamera
  | _, _ => 1

/-- One ignored-view row (`ignored_views` table). -/
structure IgnoredView where
  cameraid : String
  heading : ℤ
  angularwidth : ℤ
deriving DecidableEq

/-- Embedding of `img_archive.intersectsAngleRange`. -/
def intersectsAngleRange (heading1 range1 heading2 range2 : ℤ) : Bool :=
  let minHeading1 := (pyInt ((heading1 : ℚ) - (range1 : ℚ) / 2)) % 360
  let maxHeading1 := (⌈(heading1 : ℚ) + (range1 : ℚ) / 2⌉) % 360
  let minHeading2 := (pyInt ((heading2 : ℚ) - (range2 : ℚ) / 2)) % 360
  let maxHeading2 := (⌈(heading2 : ℚ) + (range2 : ℚ) / 2⌉) % 360
  if minHeading1 < maxHeading1 ∧ minHeading2 < maxHeading2 then
    decide (minHeading1 < maxHeading2 ∧ minHeading2 < maxHeading1)
  else if minHeading1 < maxHeading1 ∨ minHeading2 < maxHeading2 then
    decide (minHeading1 < maxHeading2 ∨ minHeading2 < maxHeading1)
  else true

/-- Embedding of `img_archive.findIgnoredView`: first ignored view of this
camera whose angular interval intersects the candidate's. -/
def findIgnoredView (ignoredViews : List IgnoredView) (cameraID : String)
    (heading fov : ℤ) : Option IgnoredView :=
  (ignoredViews.filter (fun x => decide (x.cameraid = cameraID))).find?
    (fun entry => intersectsAngleRange heading fov entry.heading entry.angularwidth)

/-- Embedding of `img_archive.findIgnoredViewHeading`. -/
def findIgnoredViewHeading (ignoredViews : List IgnoredView) (cameraID : String)
    (heading fov : ℤ) : Option ℤ :=
  (findIgnoredView ignoredViews cameraID heading fov).map (·.heading)

/-- Embedding of `img_archive.getHeadingRange`: compass heading of the fire
segment's center and the angular width of the segment plus 10 degrees of
alignment slack. -/
def getHeadingRange (centralHeading fov minX maxX imgSizeX : ℤ) : ℤ × ℤ :=
  let degreesInView : ℚ := (fov : ℚ)
  let degreesAlignmentError : ℚ := 10
  let centerX : ℚ := ((minX : ℚ) + (maxX : ℚ)) / 2
  let angleFromCenter : ℚ := centerX / (imgSizeX : ℚ) * degreesInView - degreesInView / 2
  let heading : ℚ := pyFloorMod (angleFromCenter + (centralHeading : ℚ)) 360
  let range : ℚ := ((maxX : ℚ) - (minX : ℚ)) / (imgSizeX : ℚ) * degreesInView +
    degreesAlignmentError
  (pyRound heading, ⌈range⌉)

/-- Embedding of `getTriangleVertices`: isoceles viewshed triangle with apex
at the camera and legs of 0.6 degrees of latitude.  The trigonometric
functions (on degrees) are passed in, since `Real.sin` is not computable. -/
def getTriangleVertices (sinDeg cosDeg : ℚ → ℚ) (latitude longitude : ℚ)
    (heading rangeAngle : ℤ) : Polygon :=
  let distanceDegrees : ℚ := 6/10
  let angle : ℚ := 90 - (heading : ℚ)
  let minAngle : ℚ := pyFloorMod (angle - (rangeAngle : ℚ) / 2) 360
  let maxAngle : ℚ := pyFloorMod (angle + (rangeAngle : ℚ) / 2) 360
  [(latitude, longitude),
   (latitude + sinDeg minAngle * distanceDegrees, longitude + cosDeg minAngle * distanceDegrees),
   (latitude + sinDeg maxAngle * distanceDegrees, longitude + cosDeg maxAngle * distanceDegrees)]

/-- One archive image considered by `genMovie`, tagged with whether the PTZ
alignment (`img_archive.alignImage`) would succeed on it. -/
structure ArchiveMovieImage where
  unixTime : ℤ
  alignOk : Bool
  imageID : String
deriving DecidableEq

/-- Embedding of the image-collection loop of `genMovie`: of the archive
images around the detection time, at most the last 5 are used, and an image
is uploaded (contributing to `imgIDs`) iff it is the detection image itself
or aligns against it. -/
def genMovieImgIDs (timestamp : ℤ) (images : List ArchiveMovieImage) : List String :=
  let imgSequence := images.drop (images.length - 5)
  (imgSequence.filter (fun im => decide (im.unixTime = timestamp) || im.alignOk)).map
    (·.imageID)

/-- The row written to the `detections` table by `updateDetectionsDB`. -/
structure DetectionInsert where
  camera : String
  timestamp : ℤ
  adjScore : ℚ
  croppedID : String
  annotatedID : String
  mapID : String
  polygon : Polygon
  sourcePolygons : List Polygon
  isProtoCam : Bool
  weatherScore : ℚ
  imgIDs : List String
deriving DecidableEq

/-- The row written to the `alerts` table by `updateAlertsDB`. -/
structure AlertInsert where
  camera : String
  timestamp : ℤ
  adjScore : ℚ
  croppedID : String
  annotatedID : String
  mapID : String
  polygon : Polygon
  sourcePolygons : List Polygon
  isProtoCam : Bool
  weatherScore : ℚ
deriving DecidableEq

/-- The observable effects of one `fireDetected` call: the ignored-view
counter increment (if any), the rows inserted into `detections` and
`alerts`, whether the pubsub/email/sms notifications were sent, and the
computed (pre-rounding) weather score when reached. -/
structure FdResult where
  ignoredHeading : Option ℤ
  detections : List DetectionInsert
  alerts : List AlertInsert
  published : Bool
  weatherScore : Option ℚ
deriving DecidableEq

/-- Embedding of `fireDetected`.  External collaborators are parameters: the
shapely intersection `polyIntersect`, degree-based `sinDeg`/`cosDeg`, the
weather model `predict` with the fetched weather records, and the uploaded
artifact ids.  The result is `none` on the one uncaught-exception path
(`intersectLand` returning `None` and being fed to shapely again).  The
`detections` row stores the weather score rounded to 4 digits, while the
alert gate `publishAlert` uses the unrounded score, exactly as in the
source. -/
def fireDetected {W : Type} (polyIntersect : Polygon → Polygon → Option Polygon)
    (sinDeg cosDeg : ℚ → ℚ) (predict : ℚ → ℕ → W → W → ℚ) (weatherThreshold : ℚ)
    (ignoredViews : List IgnoredView) (movieImages : List ArchiveMovieImage)
    (recentDetections : List DetectionEntry)
    (weatherCentroid weatherCamera : Option W) (camLatitude camLongitude : ℚ)
    (croppedID annotatedID mapID : String) (cameraID : String)
    (cameraHeading timestamp fov imgSizeX : ℤ) (fireSegment : FireSegment) :
    Option FdResult :=
  let hr := getHeadingRange cameraHeading fov fireSegment.minX fireSegment.maxX imgSizeX
  let fireHeading := hr.1
  let rangeAngle := hr.2
  match findIgnoredViewHeading ignoredViews cameraID fireHeading rangeAngle with
  | some ignoredHeading => some ⟨some ignoredHeading, [], [], false, none⟩
  | none =>
    let imgIDs := genMovieImgIDs timestamp movieImages
    if imgIDs.length < 2 then some ⟨none, [], [], false, none⟩
    else
      let triangle := getTriangleVertices sinDeg cosDeg camLatitude camLongitude
        fireHeading rangeAngle
      match intersectLand polyIntersect triangle with
      | none => none
      | some currentViewShed =>
        let intersectionInfo :=
          intersectRecentDetections polyIntersect recentDetections timestamp currentViewShed
        let polygon := match intersectionInfo with
          | some info => info.1
          | none => currentViewShed
        let sourcePolygons := match intersectionInfo with
          | some info => info.2 ++ [currentViewShed]
          | none => [currentViewShed]
        let weatherScore := checkWeatherInfo predict weatherCentroid weatherCamera
          fireSegment sourcePolygons.length
        let segWeatherScore := roundQ4 weatherScore
        let adjScore := fireSegment.adjScore.getD fireSegment.score
        let det : DetectionInsert :=
          ⟨cameraID, timestamp, adjScore, croppedID, annotatedID, mapID, polygon,
            sourcePolygons, isProto cameraID, segWeatherScore, imgIDs⟩
        if publishAlert weatherThreshold cameraID weatherScore then
          some ⟨none, [det],
            [⟨cameraID, timestamp, adjScore, croppedID, annotatedID, mapID, polygon,
              sourcePolygons, isProto cameraID, segWeatherScore⟩],
            true, some weatherScore⟩
        else
          some ⟨none, [det], [], false, some weatherScore⟩

/-! ### Theorems for deduplication and recent-detection intersection -/

/-- C2 counterexample: with a probable for camera `"c"`, heading 90 recorded
at time 1000, a new candidate at time 1600 (600 seconds later, inside the
hour window) still inserts a second `Probable` row; only the composition
stage (second component `false`) is suppressed. -/
theorem mainCandidateStep_duplicate_counterexample :
    mainCandidateStep false [⟨"c", 90, 1000, 0, 0, 299, 299, 1, "i0", "m"⟩] "c" 90 1600
        ⟨0, 0, 299, 299, 1⟩ "i1" "m" =
      ([⟨"c", 90, 1000, 0, 0, 299, 299, 1, "i0", "m"⟩,
        ⟨"c", 90, 1600, 0, 0, 299, 299, 1, "i1", "m"⟩], false) ∧
    (1600 : ℤ) - 1000 < 60 * 60 := by
  refine ⟨by decide, by decide⟩

/-- C2 amended: when a probable for the same camera and heading exists with
a timestamp strictly within the preceding hour, the stateful pipeline still
inserts the new `Probable` row (so two rows per camera/heading/hour are
possible), and it is the composition stage — `fireDetected`, hence any
`Detection`, `Alert`, or notification — that is skipped. -/
theorem mainCandidateStep_duplicate (probables : List ProbableRow) (cameraID : String)
    (heading timestamp : ℤ) (seg : Segment) (imageID modelId : String)
    (hdup : isDuplicateProbables
      (probables ++ [⟨cameraID, heading, timestamp, seg.minX, seg.minY, seg.maxX,
        seg.maxY, seg.score, imageID, modelId⟩]) cameraID heading timestamp = true) :
    mainCandidateStep false probables cameraID heading timestamp seg imageID modelId =
      (probables ++ [⟨cameraID, heading, timestamp, seg.minX, seg.minY, seg.maxX,
        seg.maxY, seg.score, imageID, modelId⟩], false) := by
  simp [mainCandidateStep, recordProbables, hdup]

/-- C2 witness: the amended theorem applied at the counterexample's input. -/
theorem mainCandidateStep_duplicate_witness :
    mainCandidateStep false [⟨"c", 90, 1000, 0, 0, 299, 299, 1, "i0", "m"⟩] "c" 90 1600
        ⟨0, 0, 299, 299, 1⟩ "i1" "m" =
      ([⟨"c", 90, 1000, 0, 0, 299, 299, 1, "i0", "m"⟩] ++
        [⟨"c", 90, 1600, 0, 0, 299, 299, 1, "i1", "m"⟩], false) :=
  mainCandidateStep_duplicate _ _ _ _ _ _ _ (by decide)

/-- A computable stand-in for the shapely polygon intersection restricted to
axis-aligned rectangles: the intersection of the bounding boxes, with empty
or zero-area intersections reported as `none` (matching
`getPolygonIntersection`).  Used to instantiate the abstract `polyIntersect`
parameter on concrete inputs. -/
def rectPoly (x0 y0 x1 y1 : ℚ) : Polygon := [(x0, y0), (x1, y0), (x1, y1), (x0, y1)]

/-- Bounding box of a polygon's vertex list. -/
def polyBounds (p : Polygon) : Option (ℚ × ℚ × ℚ × ℚ) :=
  match p with
  | [] => none
  | v :: vs => some (vs.foldl
      (fun acc w => (min acc.1 w.1, min acc.2.1 w.2, max acc.2.2.1 w.1, max acc.2.2.2 w.2))
      (v.1, v.2, v.1, v.2))

/-- Rectangle intersection as a `polyIntersect` instance. -/
def rectIntersect (p q : Polygon) : Option Polygon :=
  match polyBounds p, polyBounds q with
  | some (px0, py0, px1, py1), some (qx0, qy0, qx1, qy1) =>
    let x0 := max px0 qx0
    let y0 := max py0 qy0
    let x1 := min px1 qx1
    let y1 := min py1 qy1
    if x0 < x1 ∧ y0 < y1 then some (rectPoly x0 y0 x1 y1) else none
  | _, _ => none

/-- C5 counterexample: two recent detections both intersect the candidate's
viewshed, yet the result carries only the first (most recent) detection's
source polygons — the second matching detection's source polygon is not
accumulated. -/
theorem intersectRecentDetections_counterexample :
    intersectRecentDetections rectIntersect
        [⟨"a", 9950, rectPoly 5 5 15 15, [rectPoly 100 100 110 110]⟩,
         ⟨"b", 9900, rectPoly 0 0 3 3, [rectPoly 200 200 210 210]⟩]
        10000 (rectPoly 0 0 10 10) =
      some (rectPoly 5 5 10 10, [rectPoly 100 100 110 110]) ∧
    (rectIntersect (rectPoly 0 0 10 10) (rectPoly 0 0 3 3)).isSome = true ∧
    (10000 : ℤ) - 15 * 60 < 9900 ∧
    rectPoly 200 200 210 210 ∉ [rectPoly 100 100 110 110] := by
  refine ⟨by decide, by decide, by decide, by decide⟩

theorem mem_insertByTsDesc (d x : DetectionEntry) (l : List DetectionEntry) :
    x ∈ insertByTsDesc d l ↔ x = d ∨ x ∈ l := by
  induction l with
  | nil => simp [insertByTsDesc]
  | cons y ys ih =>
    rw [insertByTsDesc]
    split
    · simp
    · rw [List.mem_cons, ih, List.mem_cons]
      tauto

theorem mem_sortByTsDesc (x : DetectionEntry) (l : List DetectionEntry) :
    x ∈ sortByTsDesc l ↔ x ∈ l := by
  induction l with
  | nil => simp [sortByTsDesc]
  | cons y ys ih =>
    rw [sortByTsDesc, mem_insertByTsDesc, ih, List.mem_cons]

/-- Splitting lemma for `List.findSome?`: a successful search has a prefix
of failures, then the found element. -/
theorem findSome?_eq_some_split {α β : Type} (f : α → Option β) (l : List α) (b : β)
    (h : l.findSome? f = some b) :
    ∃ l1 a l2, l = l1 ++ a :: l2 ∧ (∀ x ∈ l1, f x = none) ∧ f a = some b := by
  induction l with
  | nil => simp [List.findSome?] at h
  | cons y ys ih =>
    cases hy : f y with
    | some b2 =>
      have hcons : (y :: ys).findSome? f = some b2 := by
        rw [List.findSome?, hy]
      rw [hcons] at h
      refine ⟨[], y, ys, rfl, by simp, ?_⟩
      rw [hy, h]
    | none =>
      have hcons : (y :: ys).findSome? f = ys.findSome? f := by
        rw [List.findSome?, hy]
      rw [hcons] at h
      obtain ⟨l1, a, l2, rfl, hnone, ha⟩ := ih h
      exact ⟨y :: l1, a, l2, rfl, by
        intro x hx
        rcases List.mem_cons.mp hx with rfl | hx
        · exact hy
        · exact hnone x hx, ha⟩

/-- C5 amended: `intersectRecentDetections` returns the polygonal
intersection with the *first* intersecting detection among the recent ones
(timestamp within the last 15 minutes, ordered most recent first), together
with only that single detection's source polygons; it does not accumulate
source polygons across several matching detections (the caller later appends
the current viewshed itself). -/
theorem intersectRecentDetections_first (polyIntersect : Polygon → Polygon → Option Polygon)
    (detections : List DetectionEntry) (timestamp : ℤ) (triangle : Polygon)
    (intersection : Polygon) (srcs : List Polygon)
    (h : intersectRecentDetections polyIntersect detections timestamp triangle =
      some (intersection, srcs)) :
    ∃ l1 d l2, getRecentDetections detections timestamp = l1 ++ d :: l2 ∧
      (∀ d2 ∈ l1, polyIntersect triangle d2.polygon = none) ∧
      polyIntersect triangle d.polygon = some intersection ∧
      srcs = d.sourcePolygons ∧
      d ∈ detections ∧ timestamp - 15 * 60 < d.timestamp := by
  obtain ⟨l1, d, l2, hsplit, hnone, hd⟩ :=
    findSome?_eq_some_split _ _ _ h
  have hmem : d ∈ getRecentDetections detections timestamp := by
    rw [hsplit]
    exact List.mem_append.mpr (Or.inr (List.mem_cons_self _ _))
  have hmem2 : d ∈ detections.filter (fun d2 => decide (timestamp - 15 * 60 < d2.timestamp)) := by
    rw [getRecentDetections] at hmem
    exact (mem_sortByTsDesc _ _).mp hmem
  have hmem3 := List.mem_filter.mp hmem2
  refine ⟨l1, d, l2, hsplit, fun d2 hd2 => ?_, ?_, ?_, hmem3.1, by simpa using hmem3.2⟩
  · have := hnone d2 hd2
    cases hpi : polyIntersect triangle d2.polygon with
    | none => rfl
    | some i => rw [hpi] at this; simp at this
  · cases hpi : polyIntersect triangle d.polygon with
    | none => rw [hpi] at hd; simp at hd
    | some i =>
      rw [hpi] at hd
      simp only [Option.some.injEq, Prod.mk.injEq] at hd
      rw [hd.1]
  · cases hpi : polyIntersect triangle d.polygon with
    | none => rw [hpi] at hd; simp at hd
    | some i =>
      rw [hpi] at hd
      simp only [Option.some.injEq, Prod.mk.injEq] at hd
      rw [hd.2]

/-- C5 witness: the amended theorem applied to the counterexample scenario. -/
theorem intersectRecentDetections_first_witness :
    ∃ l1 d l2,
      getRecentDetections
          [⟨"a", 9950, rectPoly 5 5 15 15, [rectPoly 100 100 110 110]⟩,
           ⟨"b", 9900, rectPoly 0 0 3 3, [rectPoly 200 200 210 210]⟩] 10000 =
        l1 ++ d :: l2 ∧
      (∀ d2 ∈ l1, rectIntersect (rectPoly 0 0 10 10) d2.polygon = none) ∧
      rectIntersect (rectPoly 0 0 10 10) d.polygon = some (rectPoly 5 5 10 10) ∧
      [rectPoly 100 100 110 110] = d.sourcePolygons ∧
      d ∈ [⟨"a", 9950, rectPoly 5 5 15 15, [rectPoly 100 100 110 110]⟩,
           ⟨"b", 9900, rectPoly 0 0 3 3, [rectPoly 200 200 210 210]⟩] ∧
      (10000 : ℤ) - 15 * 60 < d.timestamp :=
  intersectRecentDetections_first rectIntersect _ 10000 (rectPoly 0 0 10 10)
    (rectPoly 5 5 10 10) [rectPoly 100 100 110 110] (by decide)

/-! ### Theorems for the composition stage -/

/-- C8: when the weather subsystem yields no data for the centroid or the
camera location, `checkWeatherInfo` returns the pass-through score 1, and
(for any weather threshold below 1) the alert gate `publishAlert` cannot
reject the candidate. -/
theorem checkWeatherInfo_missing {W : Type} (predict : ℚ → ℕ → W → W → ℚ)
    (weatherCentroid weatherCamera : Option W) (fireSegment : FireSegment)
    (numPolys : ℕ) (weatherThreshold : ℚ) (cameraID : String)
    (hmiss : weatherCentroid = none ∨ weatherCamera = none) :
    checkWeatherInfo predict weatherCentroid weatherCamera fireSegment numPolys = 1 ∧
    (weatherThreshold < 1 →
      publishAlert weatherThreshold cameraID
        (checkWeatherInfo predict weatherCentroid weatherCamera fireSegment numPolys) =
        true) := by
  have h1 : checkWeatherInfo predict weatherCentroid weatherCamera fireSegment numPolys = 1 := by
    rcases hmiss with h | h
    · subst h
      cases weatherCamera <;> rfl
    · subst h
      cases weatherCentroid <;> rfl
  refine ⟨h1, fun hthr => ?_⟩
  rw [h1, publishAlert]
  simp [isProto, isPTZ, hthr]

/-- C8 witness: missing centroid weather at threshold 1/4. -/
theorem checkWeatherInfo_missing_witness :
    checkWeatherInfo (fun (_ : ℚ) (_ : ℕ) (_ : Unit) (_ : Unit) => (0 : ℚ)) none none
      ⟨0, 0, 299, 299, 9/10, none⟩ 1 = 1 ∧
    publishAlert (1/4) "c"
      (checkWeatherInfo (fun (_ : ℚ) (_ : ℕ) (_ : Unit) (_ : Unit) => (0 : ℚ)) none none
        ⟨0, 0, 299, 299, 9/10, none⟩ 1) = true :=
  have h := checkWeatherInfo_missing (fun (_ : ℚ) (_ : ℕ) (_ : Unit) (_ : Unit) => (0 : ℚ))
    none none ⟨0, 0, 299, 299, 9/10, none⟩ 1 (1/4) "c" (Or.inl rfl)
  ⟨h.1, h.2 (by norm_num)⟩

/-- C10: a candidate whose movie sequence yields fewer than two uploaded
images is silently dropped by `fireDetected` before the geometry and weather
checks: no `Detection` row, no `Alert` row, and no notification. -/
theorem fireDetected_short_movie {W : Type}
    (polyIntersect : Polygon → Polygon → Option Polygon) (sinDeg cosDeg : ℚ → ℚ)
    (predict : ℚ → ℕ → W → W → ℚ) (weatherThreshold : ℚ)
    (ignoredViews : List IgnoredView) (movieImages : List ArchiveMovieImage)
    (recentDetections : List DetectionEntry)
    (weatherCentroid weatherCamera : Option W) (camLatitude camLongitude : ℚ)
    (croppedID annotatedID mapID : String) (cameraID : String)
    (cameraHeading timestamp fov imgSizeX : ℤ) (fireSegment : FireSegment)
    (hImgs : (genMovieImgIDs timestamp movieImages).length < 2) :
    ∃ res, fireDetected polyIntersect sinDeg cosDeg predict weatherThreshold
        ignoredViews movieImages recentDetections weatherCentroid weatherCamera
        camLatitude camLongitude croppedID annotatedID mapID cameraID
        cameraHeading timestamp fov imgSizeX fireSegment = some res ∧
      res.detections = [] ∧ res.alerts = [] ∧ res.published = false := by
  simp only [fireDetected]
  split
  · exact ⟨_, rfl, rfl, rfl, rfl⟩
  · rw [if_pos hImgs]
    exact ⟨_, rfl, rfl, rfl, rfl⟩

/-- C10 witness: a single prior frame whose PTZ alignment failed produces an
empty `imgIDs` list, and the candidate is dropped. -/
theorem fireDetected_short_movie_witness :
    ∃ res, fireDetected (fun p _ => some p) (fun _ => 0) (fun _ => 0)
        (fun (_ : ℚ) (_ : ℕ) (_ : Unit) (_ : Unit) => (0 : ℚ)) (1/4)
        [] [⟨900, false, "x"⟩] [] none none 33 (-117) "cr" "an" "mp" "c"
        0 1000 110 3072 ⟨1400, 600, 1700, 900, 9/10, none⟩ = some res ∧
      res.detections = [] ∧ res.alerts = [] ∧ res.published = false :=
  fireDetected_short_movie (fun p _ => some p) (fun _ => 0) (fun _ => 0)
    (fun (_ : ℚ) (_ : ℕ) (_ : Unit) (_ : Unit) => (0 : ℚ)) (1/4)
    [] [⟨900, false, "x"⟩] [] none none 33 (-117) "cr" "an" "mp" "c"
    0 1000 110 3072 ⟨1400, 600, 1700, 900, 9/10, none⟩ (by decide)

/-- C1: for every candidate that reaches the composition stage (not in an
ignored view, at least two movie images, land intersection nonempty), a
`Detection` row with the candidate's camera and timestamp is inserted, and
an `Alert` row is inserted and the notification published if and only if the
computed weather score strictly exceeds the threshold and the camera is not
a prototype/PTZ camera; hence every alert corresponds to a detection with
the same camera and timestamp whose weather score exceeds the threshold on a
non-prototype camera. -/
theorem fireDetected_composition {W : Type}
    (polyIntersect : Polygon → Polygon → Option Polygon) (sinDeg cosDeg : ℚ → ℚ)
    (predict : ℚ → ℕ → W → W → ℚ) (weatherThreshold : ℚ)
    (ignoredViews : List IgnoredView) (movieImages : List ArchiveMovieImage)
    (recentDetections : List DetectionEntry)
    (weatherCentroid weatherCamera : Option W) (camLatitude camLongitude : ℚ)
    (croppedID annotatedID mapID : String) (cameraID : String)
    (cameraHeading timestamp fov imgSizeX : ℤ) (fireSegment : FireSegment)
    (viewShed : Polygon)
    (hIgn : findIgnoredViewHeading ignoredViews cameraID
      (getHeadingRange cameraHeading fov fireSegment.minX fireSegment.maxX imgSizeX).1
      (getHeadingRange cameraHeading fov fireSegment.minX fireSegment.maxX imgSizeX).2 =
      none)
    (hImgs : 2 ≤ (genMovieImgIDs timestamp movieImages).length)
    (hLand : intersectLand polyIntersect
      (getTriangleVertices sinDeg cosDeg camLatitude camLongitude
        (getHeadingRange cameraHeading fov fireSegment.minX fireSegment.maxX imgSizeX).1
        (getHeadingRange cameraHeading fov fireSegment.minX fireSegment.maxX imgSizeX).2) =
      some viewShed) :
    ∃ res ws, fireDetected polyIntersect sinDeg cosDeg predict weatherThreshold
        ignoredViews movieImages recentDetections weatherCentroid weatherCamera
        camLatitude camLongitude croppedID annotatedID mapID cameraID
        cameraHeading timestamp fov imgSizeX fireSegment = some res ∧
      res.weatherScore = some ws ∧
      (∃ d, res.detections = [d] ∧ d.camera = cameraID ∧ d.timestamp = timestamp) ∧
      ((res.alerts ≠ [] ∧ res.published = true) ↔
        (weatherThreshold < ws ∧ isProto cameraID = false)) ∧
      (∀ a ∈ res.alerts, ∃ d ∈ res.detections,
        d.camera = a.camera ∧ d.timestamp = a.timestamp ∧
        weatherThreshold < ws ∧ isProto cameraID = false) := by
  simp only [fireDetected, hIgn, hLand]
  rw [if_neg (by omega)]
  set intersectionInfo :=
    intersectRecentDetections polyIntersect recentDetections timestamp viewShed with hinfo
  set sourcePolygons := (match intersectionInfo with
    | some info => info.2 ++ [viewShed]
    | none => [viewShed]) with hsp
  set ws := checkWeatherInfo predict weatherCentroid weatherCamera fireSegment
    sourcePolygons.length with hws
  by_cases hpub : publishAlert weatherThreshold cameraID ws = true
  · have hgate : weatherThreshold < ws ∧ isProto cameraID = false := by
      simpa [publishAlert, Bool.and_eq_true] using hpub
    rw [if_pos hpub]
    refine ⟨_, ws, rfl, rfl, ⟨_, rfl, rfl, rfl⟩, ?_, ?_⟩
    · simp [hgate.1, hgate.2]
    · intro a ha
      rcases List.mem_singleton.mp ha with rfl
      exact ⟨_, List.mem_singleton.mpr rfl, rfl, rfl, hgate.1, hgate.2⟩
  · have hgate : ¬(weatherThreshold < ws ∧ isProto cameraID = false) := by
      intro hc
      exact hpub (by simp [publishAlert, Bool.and_eq_true, hc.1, hc.2])
    rw [if_neg hpub]
    refine ⟨_, ws, rfl, rfl, ⟨_, rfl, rfl, rfl⟩, ?_, ?_⟩
    · simp [hgate]
    · intro a ha
      simp at ha

/-- C1 witness: a concrete candidate with no ignored views, two aligned
movie images, a trivial land intersection, missing weather (score 1) and
threshold 1/4 — the detection and the alert are both produced. -/
theorem fireDetected_composition_witness :
    ∃ res ws, fireDetected (fun p _ => some p) (fun _ => 0) (fun _ => 0)
        (fun (_ : ℚ) (_ : ℕ) (_ : Unit) (_ : Unit) => (0 : ℚ)) (1/4)
        [] [⟨1000, true, "a"⟩, ⟨940, true, "b"⟩] [] none none 33 (-117)
        "cr" "an" "mp" "c" 0 1000 110 3072 ⟨1400, 600, 1700, 900, 9/10, none⟩ =
        some res ∧
      res.weatherScore = some ws ∧
      (∃ d, res.detections = [d] ∧ d.camera = "c" ∧ d.timestamp = 1000) ∧
      ((res.alerts ≠ [] ∧ res.published = true) ↔ ((1/4 : ℚ) < ws ∧ isProto "c" = false)) ∧
      (∀ a ∈ res.alerts, ∃ d ∈ res.detections,
        d.camera = a.camera ∧ d.timestamp = a.timestamp ∧
        (1/4 : ℚ) < ws ∧ isProto "c" = false) :=
  fireDetected_composition (fun p _ => some p) (fun _ => 0) (fun _ => 0)
    (fun (_ : ℚ) (_ : ℕ) (_ : Unit) (_ : Unit) => (0 : ℚ)) (1/4)
    [] [⟨1000, true, "a"⟩, ⟨940, true, "b"⟩] [] none none 33 (-117)
    "cr" "an" "mp" "c" 0 1000 110 3072 ⟨1400, 600, 1700, 900, 9/10, none⟩
    _ rfl (by decide) rfl

end Firecam
